import Mathlib

/-!
Shallow embedding of the backup session orchestrator of `m4ssc0py`
(`src/App.tsx` and `src/store.ts`): the zustand store state and its
mutators, the drag-and-drop zone classifier, the `startBackup`
submission routine, and the three engine-event handlers
(`backup-progress`, `backup-complete`, `backup-error`).

JavaScript numbers holding screen coordinates are modelled as rationals;
the engine's `uint` counters as naturals; `Math.round` as
`fun q => Int.floor (q + 1/2)` (JS rounds half toward positive
infinity).  String equality (`includes`, `===`) is exact string
equality, as in the source.
-/

namespace M4ssCopy

/-- `type Screen = 'form' | 'progress' | 'complete'` (store.ts). -/
inductive Screen
  | form
  | progress
  | complete
deriving DecidableEq, Repr

/-- `type CollisionMode = 'overwrite' | 'skip' | 'rename'` (store.ts). -/
inductive CollisionMode
  | overwrite
  | skip
  | rename
deriving DecidableEq, Repr

/-- The zustand store's state fields (interface `BackupState` in store.ts,
data fields only; the function fields become the top-level operations
below). -/
structure BackupState where
  currentScreen : Screen
  sourcePaths : List String
  sourceHistory : List String
  targetPath : String
  targetHistory : List String
  blacklist : List String
  respectGitignore : Bool
  includeSourceDir : Bool
  collisionMode : CollisionMode
  progress : ℤ
  currentFile : String
  currentFileProgress : ℤ
  copiedCount : ℕ
  skippedCount : ℕ
  totalCount : ℕ
  success : Bool
  message : String
  errors : List String
deriving DecidableEq, Repr

/-- `initialState` of store.ts. -/
def initialState : BackupState where
  currentScreen := .form
  sourcePaths := []
  sourceHistory := []
  targetPath := ""
  targetHistory := []
  blacklist := ["node_modules", "dist"]
  respectGitignore := false
  includeSourceDir := true
  collisionMode := .overwrite
  progress := 0
  currentFile := ""
  currentFileProgress := 0
  copiedCount := 0
  skippedCount := 0
  totalCount := 0
  success := false
  message := ""
  errors := []

/-- `setScreen` (store.ts). -/
def setScreen (screen : Screen) (s : BackupState) : BackupState :=
  { s with currentScreen := screen }

/-- `addSourcePath`: append unless already included (store.ts). -/
def addSourcePath (path : String) (s : BackupState) : BackupState :=
  { s with sourcePaths :=
      if path ∈ s.sourcePaths then s.sourcePaths else s.sourcePaths ++ [path] }

/-- `removeSourcePath`: filter out the exact path (store.ts). -/
def removeSourcePath (path : String) (s : BackupState) : BackupState :=
  { s with sourcePaths := s.sourcePaths.filter (fun p => p ≠ path) }

/-- `clearSourcePaths` (store.ts). -/
def clearSourcePaths (s : BackupState) : BackupState :=
  { s with sourcePaths := [] }

/-- `addToSourceHistory`: `[path, ...history].slice(0, 10)` unless already
included (store.ts). -/
def addToSourceHistory (path : String) (s : BackupState) : BackupState :=
  { s with sourceHistory :=
      if path ∈ s.sourceHistory then s.sourceHistory
      else (path :: s.sourceHistory).take 10 }

/-- `setTargetPath` (store.ts). -/
def setTargetPath (path : String) (s : BackupState) : BackupState :=
  { s with targetPath := path }

/-- `addToTargetHistory`: same dedup-and-truncate policy as the source
history (store.ts). -/
def addToTargetHistory (path : String) (s : BackupState) : BackupState :=
  { s with targetHistory :=
      if path ∈ s.targetHistory then s.targetHistory
      else (path :: s.targetHistory).take 10 }

/-- `addBlacklistItem` (store.ts). -/
def addBlacklistItem (item : String) (s : BackupState) : BackupState :=
  { s with blacklist :=
      if item ∈ s.blacklist then s.blacklist else s.blacklist ++ [item] }

/-- `removeBlacklistItem` (store.ts). -/
def removeBlacklistItem (item : String) (s : BackupState) : BackupState :=
  { s with blacklist := s.blacklist.filter (fun i => i ≠ item) }

/-- `setRespectGitignore` (store.ts). -/
def setRespectGitignore (value : Bool) (s : BackupState) : BackupState :=
  { s with respectGitignore := value }

/-- `setIncludeSourceDir` (store.ts). -/
def setIncludeSourceDir (value : Bool) (s : BackupState) : BackupState :=
  { s with includeSourceDir := value }

/-- `setCollisionMode` (store.ts). -/
def setCollisionMode (mode : CollisionMode) (s : BackupState) : BackupState :=
  { s with collisionMode := mode }

/-- `setProgress` (store.ts). -/
def setProgress (progress : ℤ) (s : BackupState) : BackupState :=
  { s with progress := progress }

/-- `setCurrentFile` (store.ts). -/
def setCurrentFile (file : String) (s : BackupState) : BackupState :=
  { s with currentFile := file }

/-- `setCurrentFileProgress` (store.ts). -/
def setCurrentFileProgress (progress : ℤ) (s : BackupState) : BackupState :=
  { s with currentFileProgress := progress }

/-- `setCopiedCount` (store.ts). -/
def setCopiedCount (count : ℕ) (s : BackupState) : BackupState :=
  { s with copiedCount := count }

/-- `setSkippedCount` (store.ts). -/
def setSkippedCount (count : ℕ) (s : BackupState) : BackupState :=
  { s with skippedCount := count }

/-- `setTotalCount` (store.ts). -/
def setTotalCount (count : ℕ) (s : BackupState) : BackupState :=
  { s with totalCount := count }

/-- `setSuccess` (store.ts). -/
def setSuccess (success : Bool) (s : BackupState) : BackupState :=
  { s with success := success }

/-- `setMessage` (store.ts). -/
def setMessage (message : String) (s : BackupState) : BackupState :=
  { s with message := message }

/-- `addError`: `errors: [...state.errors, error]` (store.ts). -/
def addError (error : String) (s : BackupState) : BackupState :=
  { s with errors := s.errors ++ [error] }

/-- `reset`: spread `initialState`, then re-thread the six durable
fields from the current state (store.ts). -/
def reset (s : BackupState) : BackupState :=
  { initialState with
      sourceHistory := s.sourceHistory
      targetHistory := s.targetHistory
      blacklist := s.blacklist
      respectGitignore := s.respectGitignore
      includeSourceDir := s.includeSourceDir
      collisionMode := s.collisionMode }

/-- The record written to the local cache: the shape returned by
`partialize` in the `persist` options (store.ts). -/
structure PersistedState where
  sourcePaths : List String
  sourceHistory : List String
  targetPath : String
  targetHistory : List String
  blacklist : List String
  respectGitignore : Bool
  includeSourceDir : Bool
  collisionMode : CollisionMode
deriving DecidableEq, Repr

/-- `partialize` of the `persist` middleware options (store.ts): the
projection of the store state that is persisted under the
`m4ssc0py-storage` key. -/
def partialize (s : BackupState) : PersistedState where
  sourcePaths := s.sourcePaths
  sourceHistory := s.sourceHistory
  targetPath := s.targetPath
  targetHistory := s.targetHistory
  blacklist := s.blacklist
  respectGitignore := s.respectGitignore
  includeSourceDir := s.includeSourceDir
  collisionMode := s.collisionMode

/-- `interface BackupProgress` (App.tsx): the `backup-progress` payload. -/
structure BackupProgress where
  current_file : String
  copied_count : ℕ
  skipped_count : ℕ
  total_count : ℕ
deriving DecidableEq, Repr

/-- `interface BackupComplete` (App.tsx): the `backup-complete` payload. -/
structure BackupComplete where
  success : Bool
  copied_count : ℕ
  skipped_count : ℕ
  message : String
deriving DecidableEq, Repr

/-- `interface BackupError` (App.tsx): the `backup-error` payload. -/
structure BackupError where
  message : String
  file : Option String
deriving DecidableEq, Repr

/-- JavaScript's `Math.round`: nearest integer, halves toward positive
infinity. -/
def jsRound (q : ℚ) : ℤ := ⌊q + 1 / 2⌋

/-- The `backup-progress` listener (App.tsx `setupListeners`): overwrite
`currentFile` and the three counters from the payload, then set
`progress` to `Math.round(((copied_count + skipped_count) / total_count) * 100)`
when `total_count > 0`, else `0`. -/
def onBackupProgress (p : BackupProgress) (s : BackupState) : BackupState :=
  { s with
      currentFile := p.current_file
      copiedCount := p.copied_count
      skippedCount := p.skipped_count
      totalCount := p.total_count
      progress :=
        if p.total_count > 0 then
          jsRound (((p.copied_count : ℚ) + p.skipped_count) / p.total_count * 100)
        else 0 }

/-- The `backup-complete` listener (App.tsx `setupListeners`): write
`message`, `success` and `skippedCount` from the payload (the payload's
`copied_count` is not read), force `progress := 100`, set the screen to
`complete`. -/
def onBackupComplete (p : BackupComplete) (s : BackupState) : BackupState :=
  { s with
      message := p.message
      success := p.success
      skippedCount := p.skipped_count
      progress := 100
      currentScreen := .complete }

/-- The string the `backup-error` listener appends:
`` file ? `${file}: ${message}` : message `` (App.tsx). -/
def errorEntry (p : BackupError) : String :=
  match p.file with
  | some f => f ++ ": " ++ p.message
  | none => p.message

/-- The `backup-error` listener (App.tsx `setupListeners`): append the
formatted entry to the error log via `addError`. -/
def onBackupError (p : BackupError) (s : BackupState) : BackupState :=
  addError (errorEntry p) s

/-- Outcome of the `invoke("backup_directory", …)` call in `startBackup`:
either the promise resolves, or it rejects with a value whose string
interpolation is `msg`. -/
inductive InvokeResult
  | ok
  | err (msg : String)
deriving DecidableEq, Repr

/-- `startBackup` (App.tsx): return unchanged when
`sourcePaths.length === 0 || !targetPath`; otherwise add the target to
target history, set the screen to `progress`, zero the progress fields,
and invoke the engine — a synchronous rejection is caught and recorded as
`` message := `Error: ${error}` `` with `success := false` (no screen
change happens in the catch branch). -/
def startBackup (r : InvokeResult) (s : BackupState) : BackupState :=
  if s.sourcePaths.length = 0 ∨ s.targetPath = "" then s
  else
    let s1 := addToTargetHistory s.targetPath s
    let s2 := setCurrentFile ""
      (setTotalCount 0 (setSkippedCount 0 (setCopiedCount 0
        (setProgress 0 (setScreen .progress s1)))))
    match r with
    | .ok => s2
    | .err msg => setSuccess false (setMessage ("Error: " ++ msg) s2)

/-- The two drop zones a drag position can classify to (`'source' | 'target'`
in the App.tsx drag listeners; the `null` resting value of the `dropZone`
UI state is not a classification result). -/
inductive DropZone
  | source
  | target
deriving DecidableEq, Repr

/-- The zone decision shared by the DRAG_ENTER, DRAG_OVER and DRAG_DROP
listeners (App.tsx): `y < windowHeight * 0.35` → source,
else `y < windowHeight * 0.55` → target, else source. -/
def classify (y windowHeight : ℚ) : DropZone :=
  if y < windowHeight * 0.35 then .source
  else if y < windowHeight * 0.55 then .target
  else .source

/-- The loop the DRAG_DROP listener runs over dropped paths in the source
band: `addSourcePath(path); addToSourceHistory(path)` for each (App.tsx). -/
def dropIntoSource (paths : List String) (s : BackupState) : BackupState :=
  paths.foldl (fun st p => addToSourceHistory p (addSourcePath p st)) s

/-- The DRAG_DROP listener (App.tsx): in the source band, add every
dropped path to the source paths and source history; in the target band,
take the first dropped path (if any) as the target and add it to target
history; below the bands, default to the source behaviour. -/
def onDragDrop (paths : List String) (y windowHeight : ℚ)
    (s : BackupState) : BackupState :=
  if y < windowHeight * 0.35 then
    dropIntoSource paths s
  else if y < windowHeight * 0.55 then
    match paths with
    | [] => s
    | p :: _ => addToTargetHistory p (setTargetPath p s)
  else
    dropIntoSource paths s

/-- One store mutation: the actions of the `BackupState` interface
(store.ts), used to quantify over arbitrary operation sequences. -/
inductive Action
  | doSetScreen (screen : Screen)
  | doAddSourcePath (path : String)
  | doRemoveSourcePath (path : String)
  | doClearSourcePaths
  | doAddToSourceHistory (path : String)
  | doSetTargetPath (path : String)
  | doAddToTargetHistory (path : String)
  | doAddBlacklistItem (item : String)
  | doRemoveBlacklistItem (item : String)
  | doSetRespectGitignore (value : Bool)
  | doSetIncludeSourceDir (value : Bool)
  | doSetCollisionMode (mode : CollisionMode)
  | doSetProgress (n : ℤ)
  | doSetCurrentFile (file : String)
  | doSetCurrentFileProgress (n : ℤ)
  | doSetCopiedCount (n : ℕ)
  | doSetSkippedCount (n : ℕ)
  | doSetTotalCount (n : ℕ)
  | doSetSuccess (value : Bool)
  | doSetMessage (message : String)
  | doAddError (error : String)
  | doReset
deriving DecidableEq, Repr

/-- Interpretation of one action as the corresponding store mutator. -/
def applyAction (a : Action) (s : BackupState) : BackupState :=
  match a with
  | .doSetScreen screen => setScreen screen s
  | .doAddSourcePath path => addSourcePath path s
  | .doRemoveSourcePath path => removeSourcePath path s
  | .doClearSourcePaths => clearSourcePaths s
  | .doAddToSourceHistory path => addToSourceHistory path s
  | .doSetTargetPath path => setTargetPath path s
  | .doAddToTargetHistory path => addToTargetHistory path s
  | .doAddBlacklistItem item => addBlacklistItem item s
  | .doRemoveBlacklistItem item => removeBlacklistItem item s
  | .doSetRespectGitignore value => setRespectGitignore value s
  | .doSetIncludeSourceDir value => setIncludeSourceDir value s
  | .doSetCollisionMode mode => setCollisionMode mode s
  | .doSetProgress n => setProgress n s
  | .doSetCurrentFile file => setCurrentFile file s
  | .doSetCurrentFileProgress n => setCurrentFileProgress n s
  | .doSetCopiedCount n => setCopiedCount n s
  | .doSetSkippedCount n => setSkippedCount n s
  | .doSetTotalCount n => setTotalCount n s
  | .doSetSuccess value => setSuccess value s
  | .doSetMessage message => setMessage message s
  | .doAddError error => addError error s
  | .doReset => reset s

/-- A sequence of store mutations applied in order. -/
def applyActions (acts : List Action) (s : BackupState) : BackupState :=
  acts.foldl (fun st a => applyAction a st) s

/-- The spec's percent formula, stated in the spec's own form:
`round(100 * (copied + skipped) / total)`, and `0` when `total = 0`. -/
def percentSpec (copied skipped total : ℕ) : ℤ :=
  if total > 0 then jsRound (100 * ((copied : ℚ) + skipped) / total) else 0

/-- The invariants of the source-path set and the two history lists: no
duplicates anywhere, and each history holds at most 10 entries. -/
def HistInv (s : BackupState) : Prop :=
  s.sourcePaths.Nodup ∧
  s.sourceHistory.Nodup ∧ s.sourceHistory.length ≤ 10 ∧
  s.targetHistory.Nodup ∧ s.targetHistory.length ≤ 10

/-! ## Helper lemmas -/

lemma histInv_applyAction {s : BackupState} (a : Action) (h : HistInv s) :
    HistInv (applyAction a s) := by
  obtain ⟨h1, h2, h3, h4, h5⟩ := h
  cases a
  case doAddSourcePath p =>
    refine ⟨?_, h2, h3, h4, h5⟩
    simp only [applyAction, addSourcePath]
    split
    · exact h1
    · next hp => simp [List.nodup_append, h1, hp]
  case doRemoveSourcePath p => exact ⟨h1.filter _, h2, h3, h4, h5⟩
  case doClearSourcePaths => exact ⟨List.nodup_nil, h2, h3, h4, h5⟩
  case doAddToSourceHistory p =>
    refine ⟨h1, ?_, ?_, h4, h5⟩
    · simp only [applyAction, addToSourceHistory]
      split
      · exact h2
      · next hp => exact (List.take_sublist _ _).nodup (List.nodup_cons.mpr ⟨hp, h2⟩)
    · simp only [applyAction, addToSourceHistory]
      split
      · exact h3
      · simp [List.length_take]
  case doAddToTargetHistory p =>
    refine ⟨h1, h2, h3, ?_, ?_⟩
    · simp only [applyAction, addToTargetHistory]
      split
      · exact h4
      · next hp => exact (List.take_sublist _ _).nodup (List.nodup_cons.mpr ⟨hp, h4⟩)
    · simp only [applyAction, addToTargetHistory]
      split
      · exact h5
      · simp [List.length_take]
  case doReset => exact ⟨List.nodup_nil, h2, h3, h4, h5⟩
  all_goals exact ⟨h1, h2, h3, h4, h5⟩

lemma histInv_applyActions (acts : List Action) {s : BackupState} (h : HistInv s) :
    HistInv (applyActions acts s) := by
  induction acts generalizing s with
  | nil => exact h
  | cons a rest ih => exact ih (histInv_applyAction a h)

lemma mem_addSourcePath_self (q : String) (s : BackupState) :
    q ∈ (addSourcePath q s).sourcePaths := by
  simp only [addSourcePath]
  split
  · next hq => exact hq
  · simp

lemma mem_addSourcePath_mono {p : String} (q : String) (s : BackupState)
    (h : p ∈ s.sourcePaths) : p ∈ (addSourcePath q s).sourcePaths := by
  simp only [addSourcePath]
  split
  · exact h
  · simp [h]

lemma mem_sourcePaths_dropIntoSource (paths : List String) (s : BackupState) (p : String)
    (h : p ∈ s.sourcePaths ∨ p ∈ paths) : p ∈ (dropIntoSource paths s).sourcePaths := by
  induction paths generalizing s with
  | nil => simpa [dropIntoSource] using h.resolve_right (by simp)
  | cons q rest ih =>
      apply ih
      rcases h with hs | hp
      · exact Or.inl (mem_addSourcePath_mono q s hs)
      · rcases List.mem_cons.mp hp with rfl | hrest
        · exact Or.inl (mem_addSourcePath_self p s)
        · exact Or.inr hrest

/-! ## The claims -/

/-- C1, counterexample: the claim says notifications arriving in the
`complete` screen are ignored, but two `backup-error` events received
after the screen has reached `complete` do change the error log. -/
theorem errors_grow_after_complete :
    (onBackupError ⟨"disk full", none⟩ (onBackupError ⟨"disk full", none⟩
        { initialState with currentScreen := Screen.complete })).errors ≠
      ({ initialState with currentScreen := Screen.complete } : BackupState).errors := by
  decide

/-- C1, amended: the notification handlers never consult the current
screen. A `backup-error` event received in any screen — in particular
after `complete` — appends its formatted entry to the error log and
leaves the screen unchanged, so two such events append two entries; the
`backup-progress` handler also never changes the screen, and the
`backup-complete` handler always sets it to `complete`. -/
theorem handlers_ignore_screen :
    (∀ (e : BackupError) (s : BackupState),
      (onBackupError e s).errors = s.errors ++ [errorEntry e] ∧
      (onBackupError e s).currentScreen = s.currentScreen) ∧
    (∀ (e1 e2 : BackupError) (s : BackupState),
      (onBackupError e2 (onBackupError e1 s)).errors =
        s.errors ++ [errorEntry e1, errorEntry e2] ∧
      (onBackupError e2 (onBackupError e1 s)).currentScreen = s.currentScreen) ∧
    (∀ (p : BackupProgress) (s : BackupState),
      (onBackupProgress p s).currentScreen = s.currentScreen) ∧
    (∀ (c : BackupComplete) (s : BackupState),
      (onBackupComplete c s).currentScreen = Screen.complete) := by
  refine ⟨fun e s => ⟨rfl, rfl⟩, fun e1 e2 s => ⟨?_, rfl⟩, fun p s => rfl, fun c s => rfl⟩
  simp [onBackupError, addError]

/-- C2, counterexample: on a synchronous rejection of the
`backup_directory` invocation the orchestrator does not transition to
`complete` (it stays on `progress`) and does not record the raised
message verbatim (it prepends `Error: `). -/
theorem sync_failure_stays_on_progress :
    (startBackup (InvokeResult.err "engine unreachable")
        { initialState with sourcePaths := ["/a"], targetPath := "/b" }).currentScreen ≠
      Screen.complete ∧
    (startBackup (InvokeResult.err "engine unreachable")
        { initialState with sourcePaths := ["/a"], targetPath := "/b" }).message ≠
      "engine unreachable" := by
  constructor <;> decide

/-- C2, amended: if the invocation fails synchronously on a valid
configuration, `startBackup` records `success = false` with message
`Error: ` followed by the raised message; the screen was set to
`progress` before the call and remains `progress` after the failure (no
transition to `complete` happens in the catch branch), with all progress
fields at their zero values. -/
theorem sync_failure_outcome (s : BackupState) (msg : String)
    (hs : s.sourcePaths ≠ []) (ht : s.targetPath ≠ "") :
    (startBackup (InvokeResult.err msg) s).success = false ∧
    (startBackup (InvokeResult.err msg) s).message = "Error: " ++ msg ∧
    (startBackup (InvokeResult.err msg) s).currentScreen = Screen.progress ∧
    (startBackup (InvokeResult.err msg) s).progress = 0 ∧
    (startBackup (InvokeResult.err msg) s).copiedCount = 0 ∧
    (startBackup (InvokeResult.err msg) s).skippedCount = 0 ∧
    (startBackup (InvokeResult.err msg) s).totalCount = 0 ∧
    (startBackup (InvokeResult.err msg) s).currentFile = "" := by
  have hguard : ¬(s.sourcePaths.length = 0 ∨ s.targetPath = "") := by
    simp [List.length_eq_zero, hs, ht]
  simp only [startBackup, if_neg hguard]
  exact ⟨rfl, rfl, rfl, rfl, rfl, rfl, rfl, rfl⟩

/-- C2, witness: the amended statement evaluated on a concrete valid
configuration and rejection message. -/
theorem sync_failure_outcome_witness :
    (["/a"] : List String) ≠ [] ∧ ("/b" : String) ≠ "" ∧
    (startBackup (InvokeResult.err "boom")
        { initialState with sourcePaths := ["/a"], targetPath := "/b" }).message =
      "Error: " ++ "boom" := by
  exact ⟨by decide, by decide,
    (sync_failure_outcome { initialState with sourcePaths := ["/a"], targetPath := "/b" }
      "boom" (by decide) (by decide)).2.1⟩

/-- C3, counterexample: the claim says the persisted projection excludes
the selected source paths and the target path, but `partialize` returns
different records for states differing only in those fields. -/
theorem partialize_keeps_session_paths :
    partialize { initialState with sourcePaths := ["/a"] } ≠ partialize initialState ∧
    partialize { initialState with targetPath := "/b" } ≠ partialize initialState := by
  constructor <;> decide

/-- C3, amended: the persisted record contains the durable preference
subset (the two history lists, blacklist, respectGitignore,
includeSourceDir, collisionMode) plus the session-scoped source paths
and target path; it excludes the screen, the progress fields, the
completion outcome and the errors, so a relaunch restores those
excluded fields to defaults. -/
theorem partialize_projection (s : BackupState) :
    partialize s = ⟨s.sourcePaths, s.sourceHistory, s.targetPath, s.targetHistory,
      s.blacklist, s.respectGitignore, s.includeSourceDir, s.collisionMode⟩ ∧
    (∀ (sc : Screen) (pr : ℤ) (cf : String) (cfp : ℤ) (cc sk tc : ℕ)
        (su : Bool) (m : String) (er : List String),
      partialize { s with
          currentScreen := sc
          progress := pr
          currentFile := cf
          currentFileProgress := cfp
          copiedCount := cc
          skippedCount := sk
          totalCount := tc
          success := su
          message := m
          errors := er } =
        partialize s) := by
  exact ⟨rfl, fun _ _ _ _ _ _ _ _ _ _ => rfl⟩

/-- C4, counterexample: a valid submission does not clear the error log:
`startBackup` on a state carrying an earlier error keeps it. -/
theorem submission_keeps_old_errors :
    (startBackup InvokeResult.ok
        { initialState with
            sourcePaths := ["/a"]
            targetPath := "/b"
            errors := ["earlier failure"] }).errors ≠ ([] : List String) := by
  decide

/-- C4, amended: on every valid submission the progress state (percent,
current file, copied, skipped and total counts) is reset to zero values
before the engine is invoked, but the error log is left untouched by
`startBackup`; the errors are cleared only by `reset`. -/
theorem submission_resets_progress_not_errors (s : BackupState) (r : InvokeResult)
    (hs : s.sourcePaths ≠ []) (ht : s.targetPath ≠ "") :
    (startBackup r s).progress = 0 ∧
    (startBackup r s).currentFile = "" ∧
    (startBackup r s).copiedCount = 0 ∧
    (startBackup r s).skippedCount = 0 ∧
    (startBackup r s).totalCount = 0 ∧
    (startBackup r s).errors = s.errors ∧
    (reset s).errors = [] := by
  have hguard : ¬(s.sourcePaths.length = 0 ∨ s.targetPath = "") := by
    simp [List.length_eq_zero, hs, ht]
  simp only [startBackup, if_neg hguard]
  cases r <;> exact ⟨rfl, rfl, rfl, rfl, rfl, rfl, rfl⟩

/-- C4, witness: the amended statement evaluated on a concrete valid
configuration carrying an earlier error. -/
theorem submission_resets_progress_not_errors_witness :
    (["/a"] : List String) ≠ [] ∧ ("/b" : String) ≠ "" ∧
    (startBackup InvokeResult.ok
        { initialState with
            sourcePaths := ["/a"]
            targetPath := "/b"
            errors := ["earlier failure"] }).errors =
      ({ initialState with
            sourcePaths := ["/a"]
            targetPath := "/b"
            errors := ["earlier failure"] } : BackupState).errors := by
  exact ⟨by decide, by decide,
    (submission_resets_progress_not_errors
      { initialState with
          sourcePaths := ["/a"]
          targetPath := "/b"
          errors := ["earlier failure"] }
      InvokeResult.ok (by decide) (by decide)).2.2.2.2.2.1⟩

/-- C5: after any sequence of store operations from the initial state,
the source-path set and both history lists have no duplicates and the
histories never exceed 10 entries; adding a path already present leaves
the state unchanged (no promotion to the front), a new source path is
appended at the end (first-insertion order preserved), and a new history
path is prepended and the list truncated to 10. -/
theorem store_list_invariants :
    (∀ acts : List Action, HistInv (applyActions acts initialState)) ∧
    (∀ (s : BackupState) (p : String), p ∈ s.sourcePaths → addSourcePath p s = s) ∧
    (∀ (s : BackupState) (p : String), p ∉ s.sourcePaths →
      (addSourcePath p s).sourcePaths = s.sourcePaths ++ [p]) ∧
    (∀ (s : BackupState) (p : String), p ∈ s.sourceHistory → addToSourceHistory p s = s) ∧
    (∀ (s : BackupState) (p : String), p ∉ s.sourceHistory →
      (addToSourceHistory p s).sourceHistory = (p :: s.sourceHistory).take 10) ∧
    (∀ (s : BackupState) (p : String), p ∈ s.targetHistory → addToTargetHistory p s = s) ∧
    (∀ (s : BackupState) (p : String), p ∉ s.targetHistory →
      (addToTargetHistory p s).targetHistory = (p :: s.targetHistory).take 10) := by
  refine ⟨fun acts => histInv_applyActions acts
      ⟨List.nodup_nil, List.nodup_nil, by decide, List.nodup_nil, by decide⟩,
    fun s p hp => by simp [addSourcePath, hp],
    fun s p hp => by simp [addSourcePath, hp],
    fun s p hp => by simp [addToSourceHistory, hp],
    fun s p hp => by simp [addToSourceHistory, hp],
    fun s p hp => by simp [addToTargetHistory, hp],
    fun s p hp => by simp [addToTargetHistory, hp]⟩

/-- C5, witness: the invariants evaluated on a concrete action sequence
with a duplicate insertion, and the add operations evaluated on concrete
present and absent paths. -/
theorem store_list_invariants_witness :
    HistInv (applyActions [Action.doAddSourcePath "/a", Action.doAddSourcePath "/a",
      Action.doAddToSourceHistory "/h"] initialState) ∧
    ("/a" : String) ∈ (["/a", "/b"] : List String) ∧
    addSourcePath "/a" { initialState with sourcePaths := ["/a", "/b"] } =
      { initialState with sourcePaths := ["/a", "/b"] } ∧
    ("/c" : String) ∉ (["/a", "/b"] : List String) ∧
    (addToSourceHistory "/c"
        { initialState with sourceHistory := ["/a", "/b"] }).sourceHistory =
      ("/c" :: ["/a", "/b"]).take 10 := by
  refine ⟨store_list_invariants.1 _, by decide,
    store_list_invariants.2.1 _ "/a" (by decide), by decide,
    store_list_invariants.2.2.2.2.1 _ "/c" (by decide)⟩

/-- C6: `classify` is pure and total, mapping `[0, 0.35H)` to source,
`[0.35H, 0.55H)` to target (the boundary `y = 0.35H` classifies as
target for a positive window height) and `[0.55H, H]` to source (the
boundary `y = 0.55H` classifies as source); a drop classified as source
runs the add-to-source loop over every dropped path (each ends up in
the source-path set), while a drop classified as target takes only the
first dropped path as the new target, promotes it into target history,
and discards the rest. -/
theorem drop_zone_classifier (y H : ℚ) (paths : List String) (s : BackupState) :
    (0 ≤ y → y < H * 0.35 → classify y H = DropZone.source) ∧
    (H * 0.35 ≤ y → y < H * 0.55 → classify y H = DropZone.target) ∧
    (0 ≤ H → H * 0.55 ≤ y → y ≤ H → classify y H = DropZone.source) ∧
    (0 < H → classify (H * 0.35) H = DropZone.target) ∧
    (0 ≤ H → classify (H * 0.55) H = DropZone.source) ∧
    (classify y H = DropZone.source →
      onDragDrop paths y H s = dropIntoSource paths s ∧
      ∀ p ∈ paths, p ∈ (onDragDrop paths y H s).sourcePaths) ∧
    (classify y H = DropZone.target → ∀ (p : String) (rest : List String),
      onDragDrop (p :: rest) y H s = addToTargetHistory p (setTargetPath p s) ∧
      (onDragDrop (p :: rest) y H s).targetPath = p ∧
      onDragDrop (p :: rest) y H s = onDragDrop [p] y H s) := by
  refine ⟨?_, ?_, ?_, ?_, ?_, ?_, ?_⟩
  · intro _ h1
    simp [classify, h1]
  · intro hle hlt
    simp [classify, not_lt.mpr hle, hlt]
  · intro hH h55 _
    have h3555 : H * 0.35 ≤ H * 0.55 := by nlinarith
    simp [classify, not_lt.mpr (le_trans h3555 h55), not_lt.mpr h55]
  · intro hH
    have h2 : H * 0.35 < H * 0.55 := by nlinarith
    simp [classify, lt_irrefl (H * 0.35), h2]
  · intro hH
    have h1 : ¬ H * 0.55 < H * 0.35 := not_lt.mpr (by nlinarith)
    simp [classify, h1, lt_irrefl (H * 0.55)]
  · intro hc
    by_cases hA : y < H * 0.35
    · have he : onDragDrop paths y H s = dropIntoSource paths s := by
        simp [onDragDrop, hA]
      exact ⟨he, fun p hp => he ▸ mem_sourcePaths_dropIntoSource paths s p (Or.inr hp)⟩
    · by_cases hB : y < H * 0.55
      · exact absurd hc (by simp [classify, hA, hB])
      · have he : onDragDrop paths y H s = dropIntoSource paths s := by
          simp [onDragDrop, hA, hB]
        exact ⟨he, fun p hp => he ▸ mem_sourcePaths_dropIntoSource paths s p (Or.inr hp)⟩
  · intro hc p rest
    by_cases hA : y < H * 0.35
    · exact absurd hc (by simp [classify, hA])
    · by_cases hB : y < H * 0.55
      · refine ⟨by simp [onDragDrop, hA, hB],
          by simp [onDragDrop, hA, hB, addToTargetHistory, setTargetPath], ?_⟩
        simp [onDragDrop, hA, hB]
      · exact absurd hc (by simp [classify, hA, hB])

/-- C6, witness: classification and the two drop behaviours evaluated at
concrete coordinates in a 100-pixel-high window. -/
theorem drop_zone_classifier_witness :
    classify 40 100 = DropZone.target ∧
    (onDragDrop ["/t", "/x"] 40 100 initialState).targetPath = "/t" ∧
    classify 20 100 = DropZone.source ∧
    onDragDrop ["/a", "/b"] 20 100 initialState = dropIntoSource ["/a", "/b"] initialState := by
  have h := drop_zone_classifier 40 100 ["/t", "/x"] initialState
  have hc : classify 40 100 = DropZone.target := h.2.1 (by norm_num) (by norm_num)
  have h2 := drop_zone_classifier 20 100 ["/a", "/b"] initialState
  have hc2 : classify 20 100 = DropZone.source := h2.1 (by norm_num) (by norm_num)
  exact ⟨hc, ((h.2.2.2.2.2.2 hc) "/t" ["/x"]).2.1, hc2, (h2.2.2.2.2.2.1 hc2).1⟩

/-- C7: on every progress event the stored percent equals the spec's
formula `round(100 * (copied + skipped) / total)` with `0` when
`total = 0`; in particular the formula gives `40` at `(3, 1, 10)` and
`0` at `(0, 0, 0)`. -/
theorem progress_percent_formula :
    (∀ (p : BackupProgress) (s : BackupState),
      (onBackupProgress p s).progress =
        percentSpec p.copied_count p.skipped_count p.total_count) ∧
    percentSpec 3 1 10 = 40 ∧ percentSpec 0 0 0 = 0 := by
  refine ⟨fun p s => ?_, by norm_num [percentSpec, jsRound], by norm_num [percentSpec]⟩
  simp only [onBackupProgress, percentSpec]
  by_cases h : p.total_count > 0
  · simp only [h, if_true]
    congr 1
    ring
  · simp [h]

/-- C8: `reset` returns every session-scoped field (screen, source
paths, target path, progress fields, completion outcome, errors) to its
zero or initial value and leaves the six durable fields exactly as they
were; consequently a second `reset` yields the same durable fields as a
single one. -/
theorem reset_frame (s : BackupState) :
    (reset s).currentScreen = Screen.form ∧
    (reset s).sourcePaths = [] ∧
    (reset s).targetPath = "" ∧
    (reset s).progress = 0 ∧
    (reset s).currentFile = "" ∧
    (reset s).currentFileProgress = 0 ∧
    (reset s).copiedCount = 0 ∧
    (reset s).skippedCount = 0 ∧
    (reset s).totalCount = 0 ∧
    (reset s).success = false ∧
    (reset s).message = "" ∧
    (reset s).errors = [] ∧
    (reset s).sourceHistory = s.sourceHistory ∧
    (reset s).targetHistory = s.targetHistory ∧
    (reset s).blacklist = s.blacklist ∧
    (reset s).respectGitignore = s.respectGitignore ∧
    (reset s).includeSourceDir = s.includeSourceDir ∧
    (reset s).collisionMode = s.collisionMode ∧
    reset (reset s) = reset s := by
  refine ⟨rfl, rfl, rfl, rfl, rfl, rfl, rfl, rfl, rfl, rfl, rfl, rfl,
    rfl, rfl, rfl, rfl, rfl, rfl, rfl⟩

/-- C9: the `backup-complete` handler overwrites `skippedCount` from the
payload but never reads the payload's `copied_count`: `copiedCount` is
unchanged by the handler, so after a progress event followed by a
completion it equals the progress event's count, and it is `0` when a
session started from the initial state completes without any progress
event. -/
theorem complete_ignores_copied_count :
    (∀ (p : BackupComplete) (s : BackupState),
      (onBackupComplete p s).copiedCount = s.copiedCount ∧
      (onBackupComplete p s).skippedCount = p.skipped_count) ∧
    (∀ (c : BackupComplete) (pr : BackupProgress) (s : BackupState),
      (onBackupComplete c (onBackupProgress pr s)).copiedCount = pr.copied_count) ∧
    (∀ (c : BackupComplete) (r : InvokeResult) (ps : List String) (t : String),
      (onBackupComplete c
        (startBackup r { initialState with sourcePaths := ps, targetPath := t })).copiedCount
        = 0) := by
  refine ⟨fun p s => ⟨rfl, rfl⟩, fun c pr s => rfl, fun c r ps t => ?_⟩
  simp only [onBackupComplete, startBackup]
  split
  · rfl
  · cases r <;> rfl

/-- C10: a valid submission adds the current target path to the target
history (dedup-and-truncate policy) before invoking the engine, so the
target path is in the history afterwards however it was entered; an
invalid submission (no sources or empty target) returns the state
unchanged. -/
theorem submission_promotes_target_history (s : BackupState) (r : InvokeResult) :
    (s.sourcePaths ≠ [] → s.targetPath ≠ "" →
      (startBackup r s).targetHistory =
        (if s.targetPath ∈ s.targetHistory then s.targetHistory
         else (s.targetPath :: s.targetHistory).take 10) ∧
      s.targetPath ∈ (startBackup r s).targetHistory) ∧
    (s.sourcePaths = [] ∨ s.targetPath = "" → startBackup r s = s) := by
  constructor
  · intro hs ht
    have hguard : ¬(s.sourcePaths.length = 0 ∨ s.targetPath = "") := by
      simp [List.length_eq_zero, hs, ht]
    have hth : (startBackup r s).targetHistory =
        (addToTargetHistory s.targetPath s).targetHistory := by
      simp only [startBackup, if_neg hguard]
      cases r <;> rfl
    rw [hth]
    refine ⟨rfl, ?_⟩
    simp only [addToTargetHistory]
    split
    · next h => exact h
    · rw [show (s.targetPath :: s.targetHistory).take 10 =
        s.targetPath :: s.targetHistory.take 9 from rfl]
      exact List.mem_cons_self _ _
  · intro h
    have hguard : s.sourcePaths.length = 0 ∨ s.targetPath = "" := by
      rcases h with h | h
      · exact Or.inl (by simp [h])
      · exact Or.inr h
    simp only [startBackup, if_pos hguard]

/-- C10, witness: a typed-only target lands in the target history on a
concrete valid submission, and an invalid submission from the initial
state is the identity. -/
theorem submission_promotes_target_history_witness :
    (["/a"] : List String) ≠ [] ∧ ("/typed" : String) ≠ "" ∧
    "/typed" ∈ (startBackup InvokeResult.ok
      { initialState with sourcePaths := ["/a"], targetPath := "/typed" }).targetHistory ∧
    (([] : List String) = [] ∨ ("" : String) = "") ∧
    startBackup InvokeResult.ok initialState = initialState := by
  refine ⟨by decide, by decide,
    ((submission_promotes_target_history
      { initialState with sourcePaths := ["/a"], targetPath := "/typed" }
      InvokeResult.ok).1 (by decide) (by decide)).2,
    Or.inl rfl,
    (submission_promotes_target_history initialState InvokeResult.ok).2 (Or.inl rfl)⟩

end M4ssCopy
